import Mathlib

/-!
# Verification of the Glean MCP-server OAuth device-flow core (`auth.ts`)

Shallow embedding of `src/packages/mcp-server-utils/src/auth/auth.ts`.
Network calls, the token store, the system clock and terminal interaction are
modelled by explicit oracles and effect logs; the control flow of every
embedded function is translated directly from the source.  Helpers that live
outside `src/` (the config classifiers from `../config`, the `Tokens` class
from `token-store.ts`, the response predicates from `types.ts`) are modelled
from the spec and carry a doc comment saying so.
-/

namespace GleanAuth

/-- Stable machine-readable error codes, from `error.ts` usage sites in
`auth.ts` (`AuthErrorCode`). -/
inductive AuthErrorCode where
  | GleanTokenConfigUsedForOAuth
  | MissingOAuthMetadata
  | MissingOAuthTokens
  | InvalidConfig
  | AuthServerMetadataNetwork
  | AuthServerMetadataParse
  | AuthServerMetadataMissingTokenEndpoint
  | AuthServerMetadataMissingDeviceEndpoint
  | ProtectedResourceMetadataNetwork
  | ProtectedResourceMetadataNotOk
  | ProtectedResourceMetadataParse
  | ProtectedResourceMetadataMissingAuthServers
  | ProtectedResourceMetadataMissingClientId
  | GleanTokenConfigUsedForOAuthRefresh
  | RefreshTokenNotFound
  | RefreshTokenMissing
  | UnexpectedAccessTokenResponse
  | FetchTokenServerError
  | NoInteractiveTerminal
  | OAuthPollingTimeout
  | UnexpectedAuthGrantError
  | UnexpectedAuthGrantResponse
  deriving DecidableEq, Repr

/-- An `AuthError` as thrown by `auth.ts`: a human-readable message plus a
stable machine code (the `cause` payload is not modelled). -/
structure AuthError where
  message : String
  code : AuthErrorCode
  deriving DecidableEq, Repr

/-- JSON values, as far as the auth flow inspects them. -/
inductive Jval where
  | str (s : String)
  | num (n : Int)
  | bool (b : Bool)
  | null
  | arr (xs : List Jval)
  | obj (fields : List (String × Jval))

/-- First-wins lookup in an association list of JSON object fields. -/
def lookupField : List (String × Jval) → String → Option Jval
  | [], _ => none
  | p :: rest, key => if p.1 == key then some p.2 else lookupField rest key

/-- Field lookup in a JSON object: first binding wins, like property access
on a parsed JS object built from first-wins duplicate handling.  (The
responses the flow handles have no duplicate keys.) -/
def Jval.lookup (j : Jval) (key : String) : Option Jval :=
  match j with
  | .obj fields => lookupField fields key
  | _ => none

/-- Whether the JSON value is an object (`typeof x === 'object'` on a parsed
body, excluding `null`, as the guards in `auth.ts` intend). -/
def Jval.isObj : Jval → Bool
  | .obj _ => true
  | _ => false

/-- Whether field `key` is present with a string value. -/
def Jval.hasStr (j : Jval) (key : String) : Bool :=
  match j.lookup key with
  | some (.str _) => true
  | _ => false

/-- Whether field `key` is present with a numeric value. -/
def Jval.hasNum (j : Jval) (key : String) : Bool :=
  match j.lookup key with
  | some (.num _) => true
  | _ => false

/-- Whether field `key` is present at all. -/
def Jval.hasKey (j : Jval) (key : String) : Bool :=
  (j.lookup key).isSome

end GleanAuth

namespace GleanAuth

/-! ## Configuration model

Modelled from the spec: the config classifiers (`isGleanTokenConfig`,
`isOAuthConfig`, `isBasicConfig`) come from `../config/index.ts`, which is not
part of the shown core.  Spec §3: a config is exactly one of three structural
variants — token-based, complete OAuth, or basic/partial. -/

/-- A complete OAuth config (`GleanOAuthConfig`), ready to drive the device
flow. -/
structure GleanOAuthConfig where
  baseUrl : String
  issuer : String
  clientId : String
  clientSecret : Option String
  authorizationEndpoint : String
  tokenEndpoint : String
  deriving DecidableEq, Repr

/-- Modelled from the spec: the tagged union of config variants produced by
the external config classifier (spec §3, "a config is exactly one variant"). -/
inductive GleanConfig where
  | token (baseUrl apiToken : String)
  | oauth (cfg : GleanOAuthConfig)
  | basic (baseUrl : String) (issuer clientId clientSecret : Option String)
  deriving DecidableEq, Repr

/-- Modelled from the spec: `isGleanTokenConfig` holds exactly on the
token-based variant. -/
def isGleanTokenConfig : GleanConfig → Bool
  | .token _ _ => true
  | _ => false

/-- Modelled from the spec: `isOAuthConfig` holds exactly on the complete
OAuth variant. -/
def isOAuthConfig : GleanConfig → Bool
  | .oauth _ => true
  | _ => false

/-- Modelled from the spec: `isBasicConfig` holds exactly on the
partial/undiscovered variant. -/
def isBasicConfig : GleanConfig → Bool
  | .basic _ _ _ _ => true
  | _ => false

/-! ## Token model

Modelled from the spec: the `Tokens` class lives in `token-store.ts`, outside
the shown core.  Spec §3: `{ accessToken, refreshToken?, expiresAt }`;
`isExpired()` is a pure function of `expiresAt` vs current time; a token with
no `expiresAt` is treated as non-expiring; spec §8: `isExpired(t)` is true iff
`now >= t.expiresAt`. -/

/-- Modelled from the spec: an access/refresh token pair with expiration. -/
structure Tokens where
  accessToken : String
  refreshToken : Option String
  expiresAt : Option Nat
  deriving DecidableEq, Repr

/-- Modelled from the spec: `isExpired` compares `expiresAt` against the
current time; a token without `expiresAt` never expires. -/
def Tokens.isExpired (t : Tokens) (now : Nat) : Bool :=
  match t.expiresAt with
  | none => false
  | some e => decide (now ≥ e)

/-- A successful token-endpoint response body (`TokenResponse`):
`access_token`, optional `refresh_token`, `expires_in` seconds. -/
structure TokenResponse where
  access_token : String
  refresh_token : Option String
  expires_in : Option Nat
  deriving DecidableEq, Repr

/-- A token-endpoint error body (`TokenError`): carries the OAuth `error`
code string. -/
structure TokenError where
  error : String
  deriving DecidableEq, Repr

/-- A parsed token-endpoint response body.  Modelled from the spec:
`types.ts` (not in the shown core) discriminates `TokenResponse` from
`TokenError` by presence of `access_token` vs `error` (`isTokenSuccess`). -/
inductive TokenBody where
  | success (r : TokenResponse)
  | err (e : TokenError)
  deriving DecidableEq, Repr

/-- Modelled from the spec: `isTokenSuccess` holds exactly on the
`access_token`-bearing variant. -/
def isTokenSuccess : TokenBody → Bool
  | .success _ => true
  | .err _ => false

/-- Modelled from the spec: `Tokens.buildFromTokenResponse` creates a fresh
`Tokens` value from a successful token response; `expiresAt` is derived from
`now` and `expires_in` (absent `expires_in` yields a non-expiring token). -/
def Tokens.buildFromTokenResponse (r : TokenResponse) (now : Nat) : Tokens :=
  { accessToken := r.access_token
    refreshToken := r.refresh_token
    expiresAt := r.expires_in.map (fun s => now + s * 1000) }

/-- The device-grant result (`AuthResponse`): device code, user code,
verification URI, poll interval in seconds. -/
structure AuthResponse where
  device_code : String
  user_code : String
  verification_uri : String
  interval : Nat
  expires_in : Nat
  deriving DecidableEq, Repr

end GleanAuth

namespace GleanAuth

/-! ## Scope selection (`getOAuthScopes`, auth.ts lines 702–716)

The registrable-domain parser is the third-party `tldts` library
(`parseDomain(issuer).domain`), taken here as a parameter; the embedded
function is exactly the `?? ''` default plus the `switch` from the source. -/

/-- `getOAuthScopes` from `auth.ts`: pick the scope string from the issuer's
registrable domain (`parseDomain(issuer).domain ?? ''`, then a `switch` with
cases `google.com`, `okta.com` and a default). -/
def getOAuthScopes (parseDomain : String → Option String) (config : GleanOAuthConfig) : String :=
  let domain := (parseDomain config.issuer).getD ""
  if domain = "google.com" then
    "openid profile https://www.googleapis.com/auth/userinfo.email"
  else if domain = "okta.com" then
    "openid profile offline_access"
  else
    "openid profile offline_access"

end GleanAuth

namespace GleanAuth

/-! ## Polling engine (`pollForToken`, auth.ts lines 621–689)

The token endpoint is an oracle `fetchToken : Nat → TokenBody` giving the
body of the `k`-th POST.  Time is a fake clock: the `k`-th tick happens
`k × interval × 1000` ms after the first (requests are instantaneous and
`setTimeout(poll, interval * 1000)` fires exactly on schedule, the minimum
the real code guarantees).  `fuel` bounds the recursion depth; it is a
modelling artifact with no counterpart in the source, and every theorem
holds for all sufficiently large fuel. -/

/-- Trace of one polling run: final settlement, the elapsed time (ms since
the first tick) of each token request issued, and the elapsed time at
settlement. -/
structure PollRun where
  result : Except AuthError TokenResponse
  requestTimes : List Nat
  finishTime : Nat
  deriving Repr

/-- The rejection used when the 10-minute deadline passes. -/
def pollTimeoutError : AuthError :=
  { message := "OAuth device flow timed out after 10 minutes. Please try again."
    code := .OAuthPollingTimeout }

/-- The rejection used for a non-`authorization_pending` token error. -/
def pollDeniedError : AuthError :=
  { message := "Unexpected error requesting authorization grant"
    code := .UnexpectedAuthGrantError }

/-- One `poll()` activation and its rescheduling, from `pollForToken`:
check `now - startTime >= timeoutMs` first; otherwise POST and classify the
body — success resolves, `authorization_pending` schedules the next tick
after `intervalMs`, any other error rejects. -/
def pollForTokenAux (fetchToken : Nat → TokenBody) (intervalMs timeoutMs : Nat)
    (elapsed k : Nat) : Nat → Option PollRun
  | 0 => none
  | fuel + 1 =>
    if timeoutMs ≤ elapsed then
      some { result := .error pollTimeoutError
             requestTimes := []
             finishTime := elapsed }
    else
      match fetchToken k with
      | .success r =>
        some { result := .ok r
               requestTimes := [elapsed]
               finishTime := elapsed }
      | .err e =>
        if e.error == "authorization_pending" then
          (pollForTokenAux fetchToken intervalMs timeoutMs (elapsed + intervalMs) (k + 1)
              fuel).map
            (fun run => { run with requestTimes := elapsed :: run.requestTimes })
        else
          some { result := .error pollDeniedError
                 requestTimes := [elapsed]
                 finishTime := elapsed }

/-- `pollForToken` from `auth.ts`: poll the token endpoint with a 10-minute
(`10 * 60 * 1000` ms) deadline measured from the first tick, waiting
`authResponse.interval` seconds between ticks. -/
def pollForToken (fetchToken : Nat → TokenBody) (authResponse : AuthResponse)
    (fuel : Nat) : Option PollRun :=
  pollForTokenAux fetchToken (authResponse.interval * 1000) (10 * 60 * 1000) 0 0 fuel

/-- Unfolding `pollForTokenAux` when the pending run continues: request at
`elapsed`, then the rest of the run shifted. -/
lemma pollForTokenAux_pending (fetchToken : Nat → TokenBody)
    (intervalMs timeoutMs elapsed k fuel : Nat) (e : TokenError)
    (hlt : elapsed < timeoutMs) (hk : fetchToken k = .err e)
    (he : e.error = "authorization_pending") :
    pollForTokenAux fetchToken intervalMs timeoutMs elapsed k (fuel + 1) =
      (pollForTokenAux fetchToken intervalMs timeoutMs (elapsed + intervalMs) (k + 1)
          fuel).map
        (fun run => { run with requestTimes := elapsed :: run.requestTimes }) := by
  simp [pollForTokenAux, Nat.not_le.mpr hlt, hk, he]

/-- Arithmetic-progression view of a mapped range, used to peel the first
request time off a polling trace. -/
lemma range_map_affine (a d n : Nat) :
    (List.range (n + 1)).map (fun i => a + i * d) =
      a :: (List.range n).map (fun i => a + d + i * d) := by
  rw [List.range_succ_eq_map]
  simp only [List.map_cons, List.map_map, Nat.zero_mul, Nat.add_zero]
  congr 1
  apply List.map_congr_left
  intro i _
  simp only [Function.comp_apply, Nat.succ_eq_add_one]
  ring

/-- Core lemma for C1: if the endpoint answers `authorization_pending` for
the next `N` requests and succeeds on request `N + 1`, and the success tick
still lies before the deadline, the run resolves with the success payload
after exactly `N + 1` requests spaced `intervalMs` apart. -/
lemma pollForTokenAux_pending_then_success (fetchToken : Nat → TokenBody)
    (intervalMs timeoutMs : Nat) (r : TokenResponse) :
    ∀ (N elapsed k fuel : Nat),
      (∀ i, i < N → ∃ e, fetchToken (k + i) = .err e ∧ e.error = "authorization_pending") →
      fetchToken (k + N) = .success r →
      elapsed + N * intervalMs < timeoutMs →
      N < fuel →
      pollForTokenAux fetchToken intervalMs timeoutMs elapsed k fuel =
        some { result := .ok r
               requestTimes := (List.range (N + 1)).map (fun i => elapsed + i * intervalMs)
               finishTime := elapsed + N * intervalMs } := by
  intro N
  induction N with
  | zero =>
    intro elapsed k fuel _ hsucc hdl hfuel
    obtain ⟨fuel, rfl⟩ := Nat.exists_eq_succ_of_ne_zero (Nat.pos_iff_ne_zero.mp hfuel)
    rw [Nat.add_zero] at hsucc
    rw [Nat.zero_mul, Nat.add_zero] at hdl
    simp [pollForTokenAux, Nat.not_le.mpr hdl, hsucc, List.range_succ, Nat.zero_mul]
  | succ N ih =>
    intro elapsed k fuel hpend hsucc hdl hfuel
    obtain ⟨fuel, rfl⟩ := Nat.exists_eq_succ_of_ne_zero
      (Nat.pos_iff_ne_zero.mp (Nat.lt_of_le_of_lt (Nat.zero_le _) hfuel))
    obtain ⟨e, hke, hepend⟩ := hpend 0 (Nat.succ_pos N)
    rw [Nat.add_zero] at hke
    have hlt : elapsed < timeoutMs :=
      Nat.lt_of_le_of_lt (Nat.le_add_right _ _) hdl
    rw [pollForTokenAux_pending fetchToken intervalMs timeoutMs elapsed k fuel e hlt hke
      hepend]
    have hrec := ih (elapsed + intervalMs) (k + 1) fuel
      (fun i hi => by
        obtain ⟨e', he', hp'⟩ := hpend (i + 1) (Nat.succ_lt_succ hi)
        exact ⟨e', by rwa [Nat.add_comm i 1, ← Nat.add_assoc] at he', hp'⟩)
      (by rwa [Nat.add_comm N 1, ← Nat.add_assoc] at hsucc)
      (by
        have hmul : (N + 1) * intervalMs = N * intervalMs + intervalMs := by ring
        omega)
      (Nat.lt_of_succ_lt_succ hfuel)
    rw [hrec]
    show some _ = some _
    refine congrArg some ?_
    have hlist : elapsed ::
        (List.range (N + 1)).map (fun i => elapsed + intervalMs + i * intervalMs)
        = (List.range (N + 1 + 1)).map (fun i => elapsed + i * intervalMs) :=
      (range_map_affine elapsed intervalMs (N + 1)).symm
    have hfin : elapsed + intervalMs + N * intervalMs = elapsed + (N + 1) * intervalMs := by
      ring
    simp only [PollRun.mk.injEq]
    exact ⟨trivial, hlist, hfin⟩

/-- Core lemma for C2: if the endpoint always answers
`authorization_pending` and ticks advance the clock (`1 ≤ intervalMs`), the
run rejects with the timeout error at the first tick whose elapsed time
reaches the deadline — in particular at elapsed time `≥ timeoutMs`. -/
lemma pollForTokenAux_always_pending (fetchToken : Nat → TokenBody)
    (intervalMs timeoutMs : Nat)
    (hpend : ∀ i, ∃ e, fetchToken i = .err e ∧ e.error = "authorization_pending")
    (hint : 1 ≤ intervalMs) :
    ∀ (fuel elapsed k : Nat), 1 ≤ fuel → timeoutMs + 1 ≤ elapsed + fuel →
      ∃ run, pollForTokenAux fetchToken intervalMs timeoutMs elapsed k fuel = some run ∧
        run.result = .error pollTimeoutError ∧ timeoutMs ≤ run.finishTime := by
  intro fuel
  induction fuel with
  | zero => intro elapsed k h1 _; omega
  | succ fuel ih =>
    intro elapsed k _ h2
    by_cases hto : timeoutMs ≤ elapsed
    · refine ⟨{ result := .error pollTimeoutError, requestTimes := [], finishTime := elapsed },
        ?_, rfl, hto⟩
      simp [pollForTokenAux, hto]
    · have hlt : elapsed < timeoutMs := Nat.not_le.mp hto
      obtain ⟨e, hke, hepend⟩ := hpend k
      rw [pollForTokenAux_pending fetchToken intervalMs timeoutMs elapsed k fuel e hlt hke
        hepend]
      obtain ⟨run, hrun, hres, hfin⟩ := ih (elapsed + intervalMs) (k + 1)
        (by omega) (by omega)
      exact ⟨{ run with requestTimes := elapsed :: run.requestTimes },
        by rw [hrun]; rfl, hres, hfin⟩

/-- A concrete successful token payload for witnesses. -/
def sampleTokenResponse : TokenResponse :=
  { access_token := "tok", refresh_token := some "ref", expires_in := some 3600 }

/-- Token endpoint that answers `authorization_pending` twice and then
succeeds; used to instantiate C1. -/
def samplePendingOracle : Nat → TokenBody
  | 0 => .err { error := "authorization_pending" }
  | 1 => .err { error := "authorization_pending" }
  | _ => .success sampleTokenResponse

/-- A concrete device grant result with a 5-second poll interval. -/
def sampleAuthResponse : AuthResponse :=
  { device_code := "dev-code"
    user_code := "ABCD-EFGH"
    verification_uri := "https://id.example.com/activate"
    interval := 5
    expires_in := 1800 }

/-- Token endpoint that never leaves `authorization_pending`; used to
instantiate C2. -/
def alwaysPendingOracle : Nat → TokenBody :=
  fun _ => .err { error := "authorization_pending" }

/-! ## Prompt/poll race (`authorize` lines 535–568,
`promptUserAndOpenVerificationPage` lines 596–619, `waitForUserEnter`
lines 571–594)

Event-interleaving model of the race between the polling engine and the
interactive prompt.  Three primitive events: the poller settling (in
`authorize`, `await tokenPoller` resumes and immediately calls
`abortController.abort()` — a microtask that runs before any further I/O
event, so settlement and abort are modelled as one atomic event, which also
resolves a still-pending `waitForUserEnter` via the `abort` listener);
readline delivering a line (resolves a still-pending wait); and the prompt
continuation after `await waitForUserEnter(signal)` running (at most once,
only after the wait resolved: it checks `signal?.aborted` and only calls
`open(...)` when the signal is not aborted).  A run is an arbitrary
interleaving — a superset of the schedules the event loop can produce. -/

/-- A primitive scheduler event in the prompt/poll race. -/
inductive RaceEvent where
  | pollerSettled
  | userEnter
  | promptResume
  deriving DecidableEq, Repr

/-- Observable state of one authorization attempt's race. -/
structure RaceState where
  aborted : Bool
  waitResolved : Bool
  promptDone : Bool
  browserOpens : Nat
  deriving DecidableEq, Repr

/-- Initial race state: nothing settled, no browser opened. -/
def RaceState.init : RaceState :=
  { aborted := false, waitResolved := false, promptDone := false, browserOpens := 0 }

/-- Small-step semantics of the race, from the source: `pollerSettled`
raises the cancellation signal and unblocks the wait; `userEnter` unblocks
the wait; `promptResume` runs the prompt continuation once the wait is
resolved, opening the browser only when the signal is not aborted. -/
def raceStep (s : RaceState) : RaceEvent → RaceState
  | .pollerSettled => { s with aborted := true, waitResolved := true }
  | .userEnter => { s with waitResolved := true }
  | .promptResume =>
    if s.waitResolved && !s.promptDone then
      if s.aborted then
        { s with promptDone := true }
      else
        { s with promptDone := true, browserOpens := s.browserOpens + 1 }
    else s

/-- A run of the race: fold the events over the initial state. -/
def raceRun (events : List RaceEvent) : RaceState :=
  events.foldl raceStep RaceState.init

/-- Invariants preserved by every step carry over whole runs. -/
lemma raceStep_foldl_invariant (P : RaceState → Prop)
    (hstep : ∀ s e, P s → P (raceStep s e)) :
    ∀ (l : List RaceEvent) (s : RaceState), P s → P (l.foldl raceStep s) := by
  intro l
  induction l with
  | nil => intro s hs; exact hs
  | cons e l ih => intro s hs; exact ih (raceStep s e) (hstep s e hs)

/-- Invariant before the poller settles, while no line has been read: the
browser is unopened and the wait can only have been resolved by an abort. -/
lemma race_pre_settle (l : List RaceEvent) (hl : RaceEvent.userEnter ∉ l)
    (s : RaceState)
    (hs : s.browserOpens = 0 ∧ (s.waitResolved = true → s.aborted = true)) :
    (l.foldl raceStep s).browserOpens = 0 ∧
      ((l.foldl raceStep s).waitResolved = true → (l.foldl raceStep s).aborted = true) := by
  induction l generalizing s with
  | nil => exact hs
  | cons e l ih =>
    have he : e ≠ .userEnter := fun h => hl (h ▸ List.mem_cons_self e l)
    refine ih (List.not_mem_of_not_mem_cons hl) (raceStep s e) ?_
    obtain ⟨h0, himp⟩ := hs
    cases e with
    | pollerSettled => exact ⟨h0, fun _ => rfl⟩
    | userEnter => exact absurd rfl he
    | promptResume =>
      by_cases hw : s.waitResolved = true
      · have ha : s.aborted = true := himp hw
        simp [raceStep, hw, ha]
        by_cases hd : s.promptDone = true <;> simp [hd, h0, ha]
      · simp only [Bool.not_eq_true] at hw
        simp [raceStep, hw, h0, himp]

/-- Once the signal is aborted with the browser unopened, it stays that way
for the rest of the run. -/
lemma race_post_settle (l : List RaceEvent) (s : RaceState)
    (hs : s.aborted = true ∧ s.browserOpens = 0) :
    (l.foldl raceStep s).aborted = true ∧ (l.foldl raceStep s).browserOpens = 0 := by
  refine raceStep_foldl_invariant (fun t => t.aborted = true ∧ t.browserOpens = 0)
    ?_ l s hs
  intro t e ⟨ha, h0⟩
  cases e with
  | pollerSettled => exact ⟨rfl, h0⟩
  | userEnter => exact ⟨ha, h0⟩
  | promptResume =>
    by_cases hw : t.waitResolved = true
    · by_cases hd : t.promptDone = true <;> simp [raceStep, hw, hd, ha, h0]
    · simp only [Bool.not_eq_true] at hw
      simp [raceStep, hw, ha, h0]

/-- The prompt continuation runs at most once, so the browser opens at most
once: if the continuation has not yet run the count is zero, and the count
never exceeds one. -/
lemma race_at_most_once (l : List RaceEvent) (s : RaceState)
    (hs : (s.promptDone = false → s.browserOpens = 0) ∧ s.browserOpens ≤ 1) :
    ((l.foldl raceStep s).promptDone = false → (l.foldl raceStep s).browserOpens = 0) ∧
      (l.foldl raceStep s).browserOpens ≤ 1 := by
  refine raceStep_foldl_invariant
    (fun t => (t.promptDone = false → t.browserOpens = 0) ∧ t.browserOpens ≤ 1)
    ?_ l s hs
  intro t e ⟨h0, h1⟩
  cases e with
  | pollerSettled => exact ⟨h0, h1⟩
  | userEnter => exact ⟨h0, h1⟩
  | promptResume =>
    by_cases hw : t.waitResolved = true
    · by_cases hd : t.promptDone = true
      · simp [raceStep, hw, hd, h0, h1]
      · simp only [Bool.not_eq_true] at hd
        have := h0 hd
        by_cases ha : t.aborted = true <;> simp [raceStep, hw, hd, ha, this, h0, h1]
    · simp only [Bool.not_eq_true] at hw
      have hid : raceStep t .promptResume = t := by simp [raceStep, hw]
      rw [hid]
      exact ⟨h0, h1⟩

/-! ## Device-grant requester (`fetchDeviceAuthorization`, auth.ts
lines 718–774) -/

/-- Setting a JSON object field (`result['k'] = v`): replace an existing
binding or append a new one.  (The source mutates a shallow copy; only
first-wins lookup is observed, which this preserves.) -/
def Jval.setField : Jval → String → Jval → Jval
  | .obj fields, key, v => .obj ((fields.filter (fun p => !(p.1 == key))) ++ [(key, v)])
  | j, _, _ => j

/-- Deleting a JSON object field (`delete result['k']`). -/
def Jval.deleteField : Jval → String → Jval
  | .obj fields, key => .obj (fields.filter (fun p => !(p.1 == key)))
  | j, _ => j

/-- Modelled from the spec: `isAuthResponse` from `types.ts` (not in the
shown core) recognises a device grant result carrying `device_code`,
`user_code`, `verification_uri`, `interval` and `expires_in` (spec §3,
`AuthResponse`). -/
def isAuthResponseJ (j : Jval) : Bool :=
  j.hasStr "device_code" && j.hasStr "user_code" && j.hasStr "verification_uri" &&
    j.hasNum "interval" && j.hasNum "expires_in"

/-- Modelled from the spec: `isAuthResponseWithURL` from `types.ts`
recognises the variant some authorization servers send, with
`verification_url` in place of `verification_uri` (spec §3). -/
def isAuthResponseWithURLJ (j : Jval) : Bool :=
  j.hasStr "device_code" && j.hasStr "user_code" && j.hasStr "verification_url" &&
    j.hasNum "interval" && j.hasNum "expires_in"

/-- An HTTP response as the device-grant requester sees it: the `ok` flag
(status in the 2xx range) and the parsed JSON body. -/
structure HttpResponse where
  ok : Bool
  status : Nat
  body : Jval

/-- `fetchDeviceAuthorization` from `auth.ts`: POST `client_id` and `scope`
to the authorization endpoint (the transport is the `response` argument);
reject non-2xx or non-object bodies; rename `verification_url` to
`verification_uri` when the body is the URL-variant; reject any body
matching neither shape. -/
def fetchDeviceAuthorization (response : HttpResponse) : Except AuthError Jval :=
  let responseJson := response.body
  if !(response.ok && responseJson.isObj) then
    .error { message := "Error obtaining auth grant", code := .UnexpectedAuthGrantError }
  else if isAuthResponseWithURLJ responseJson then
    match responseJson.lookup "verification_url" with
    | some v =>
      .ok ((responseJson.setField "verification_uri" v).deleteField "verification_url")
    | none => .ok responseJson
  else if !(isAuthResponseJ responseJson) then
    .error { message := "Unexpected auth grant response"
             code := .UnexpectedAuthGrantResponse }
  else
    .ok responseJson

/-- Looking up the just-set field yields the new value. -/
lemma lookup_setField_self (fields : List (String × Jval)) (key : String) (v : Jval) :
    ((Jval.obj fields).setField key v).lookup key = some v := by
  simp only [Jval.setField, Jval.lookup]
  induction fields with
  | nil => simp [lookupField]
  | cons p fields ih =>
    by_cases h : (p.1 == key) = true
    · simpa [List.filter_cons, h] using ih
    · have h' : (p.1 == key) = false := by simpa using h
      simpa [List.filter_cons, h', lookupField] using ih

/-- Looking up a deleted field yields nothing. -/
lemma lookup_deleteField_self (fields : List (String × Jval)) (key : String) :
    ((Jval.obj fields).deleteField key).lookup key = none := by
  simp only [Jval.deleteField, Jval.lookup]
  induction fields with
  | nil => simp [lookupField]
  | cons p fields ih =>
    by_cases h : (p.1 == key) = true
    · simpa [List.filter_cons, h] using ih
    · have h' : (p.1 == key) = false := by simpa using h
      simpa [List.filter_cons, h', lookupField] using ih

/-- Deleting one field does not change the lookup of another. -/
lemma lookup_deleteField_ne (fields : List (String × Jval)) (key key' : String)
    (h : key' ≠ key) :
    ((Jval.obj fields).deleteField key).lookup key' = (Jval.obj fields).lookup key' := by
  simp only [Jval.deleteField, Jval.lookup]
  induction fields with
  | nil => simp
  | cons p fields ih =>
    by_cases hp : (p.1 == key') = true
    · have hpk : (p.1 == key) = false := by
        have : p.1 = key' := by simpa using hp
        simp [this, h]
      simp [List.filter_cons, hpk, lookupField, hp]
    · have hp' : (p.1 == key') = false := by simpa using hp
      by_cases hpk : (p.1 == key) = true
      · simpa [List.filter_cons, hpk, lookupField, hp'] using ih
      · have hpk' : (p.1 == key) = false := by simpa using hpk
        simpa [List.filter_cons, hpk', lookupField, hp'] using ih

/-- A `hasStr` field is a `some`-string lookup. -/
lemma hasStr_lookup (j : Jval) (k : String) (h : j.hasStr k = true) :
    ∃ s, j.lookup k = some (.str s) := by
  unfold Jval.hasStr at h
  cases hl : j.lookup k with
  | none => rw [hl] at h; simp at h
  | some v =>
    rw [hl] at h
    cases v with
    | str s => exact ⟨s, rfl⟩
    | num n => simp at h
    | bool b => simp at h
    | null => simp at h
    | arr xs => simp at h
    | obj fs => simp at h

/-- `setField` on an object yields an object without the deleted key making
further `deleteField` lose other keys: the set-then-delete composite used by
the normalization keeps the new `verification_uri` binding. -/
lemma lookup_set_then_delete (fields : List (String × Jval)) (k₁ k₂ : String) (v : Jval)
    (h : k₁ ≠ k₂) :
    (((Jval.obj fields).setField k₁ v).deleteField k₂).lookup k₁ = some v := by
  have hset := lookup_setField_self fields k₁ v
  simp only [Jval.setField] at hset ⊢
  rw [lookup_deleteField_ne _ k₂ k₁ h]
  exact hset

/-! ## Authorization-server metadata discovery
(`fetchOpenIdConfiguration` lines 279–293,
`fetchOauthAuthorizationServerConfig` lines 295–311,
`fetchAuthorizationServerMetadata` lines 313–361) -/

/-- What one `fetch` of a metadata endpoint can do: throw (network error),
or return a response with an `ok` flag and a body whose `response.json()`
either parses (`some`) or throws (`none`). -/
inductive FetchOutcome where
  | netError
  | response (ok : Bool) (body : Option Jval)

/-- Whether the fetch failed at the network/status level (threw or
non-2xx) — the condition under which `fetchAuthorizationServerMetadata`
falls back to the second endpoint. -/
def FetchOutcome.failed : FetchOutcome → Bool
  | .netError => true
  | .response ok _ => !ok

/-- `failAuthorizationServerMetadataFetch`: the error thrown for a network
failure or non-2xx status at either metadata endpoint. -/
def authServerMetadataNetworkError : AuthError :=
  { message := "Unable to fetch OAuth authorization server metadata: please contact your Glean administrator and ensure device flow authorization is configured correctly."
    code := .AuthServerMetadataNetwork }

/-- The error thrown when the metadata body fails to parse as JSON. -/
def authServerMetadataParseError : AuthError :=
  { message := "Unable to fetch OAuth authorization server metadata: please contact your Glean administrator and ensure device flow authorization is configured correctly."
    code := .AuthServerMetadataParse }

/-- The error thrown when the metadata has no string `token_endpoint`. -/
def missingTokenEndpointError : AuthError :=
  { message := "OAuth authorization server metadata did not include a token endpoint: please contact your Glean administrator and ensure device flow authorization is configured correctly."
    code := .AuthServerMetadataMissingTokenEndpoint }

/-- The error thrown when the metadata has no string
`device_authorization_endpoint`. -/
def missingDeviceEndpointError : AuthError :=
  { message := "OAuth authorization server metadata did not include a device authorization endpoint: please contact your Glean administrator and ensure device flow authorization is configured correctly."
    code := .AuthServerMetadataMissingDeviceEndpoint }

/-- `fetchOpenIdConfiguration` from `auth.ts`: GET
`{issuer}/.well-known/openid-configuration`; a thrown fetch or a non-`ok`
status both raise `AuthServerMetadataNetwork`; otherwise hand back the
not-yet-parsed body. -/
def fetchOpenIdConfiguration (o : FetchOutcome) : Except AuthError (Option Jval) :=
  match o with
  | .netError => .error authServerMetadataNetworkError
  | .response ok body =>
    if ok then .ok body else .error authServerMetadataNetworkError

/-- `fetchOauthAuthorizationServerConfig` from `auth.ts`: GET
`{issuer}/.well-known/oauth-authorization-server`, same failure handling. -/
def fetchOauthAuthorizationServerConfig (o : FetchOutcome) :
    Except AuthError (Option Jval) :=
  match o with
  | .netError => .error authServerMetadataNetworkError
  | .response ok body =>
    if ok then .ok body else .error authServerMetadataNetworkError

/-- The endpoint extraction at the tail of
`fetchAuthorizationServerMetadata`: parse the body, read
`device_authorization_endpoint` and `token_endpoint`, and require each to be
a string — `token_endpoint` is checked first, and each absence has its own
error code. -/
def extractServerEndpoints (body : Option Jval) :
    Except AuthError (String × String) :=
  match body with
  | none => .error authServerMetadataParseError
  | some responseJson =>
    let deviceAuthorizationEndpoint := responseJson.lookup "device_authorization_endpoint"
    let tokenEndpoint := responseJson.lookup "token_endpoint"
    match tokenEndpoint with
    | some (.str t) =>
      match deviceAuthorizationEndpoint with
      | some (.str d) => .ok (d, t)
      | _ => .error missingDeviceEndpointError
    | _ => .error missingTokenEndpointError

/-- `fetchAuthorizationServerMetadata` from `auth.ts`: try the OIDC
discovery document first; if that fetch throws (network error or non-2xx),
fall back to the OAuth authorization-server metadata endpoint; then extract
the two endpoints.  Returns
`(deviceAuthorizationEndpoint, tokenEndpoint)` on success, paired with the
list of URLs fetched, in order. -/
def fetchAuthorizationServerMetadata (issuer : String) (oidc oauthAS : FetchOutcome) :
    Except AuthError (String × String) × List String :=
  match fetchOpenIdConfiguration oidc with
  | .ok body =>
    (extractServerEndpoints body, [issuer ++ "/.well-known/openid-configuration"])
  | .error _ =>
    match fetchOauthAuthorizationServerConfig oauthAS with
    | .ok body =>
      (extractServerEndpoints body,
        [issuer ++ "/.well-known/openid-configuration",
         issuer ++ "/.well-known/oauth-authorization-server"])
    | .error e =>
      (.error e,
        [issuer ++ "/.well-known/openid-configuration",
         issuer ++ "/.well-known/oauth-authorization-server"])

/-- The endpoints fetched by `fetchAuthorizationServerMetadata`: the OIDC
discovery URL always comes first, the fallback URL exactly when the first
fetch failed. -/
lemma fetchASMeta_log (issuer : String) (oidc oauthAS : FetchOutcome) :
    (fetchAuthorizationServerMetadata issuer oidc oauthAS).2 =
      if oidc.failed then
        [issuer ++ "/.well-known/openid-configuration",
         issuer ++ "/.well-known/oauth-authorization-server"]
      else [issuer ++ "/.well-known/openid-configuration"] := by
  cases oidc with
  | netError =>
    cases oauthAS with
    | netError =>
      simp [fetchAuthorizationServerMetadata, fetchOpenIdConfiguration,
        fetchOauthAuthorizationServerConfig, FetchOutcome.failed]
    | response ok body =>
      cases ok <;>
        simp [fetchAuthorizationServerMetadata, fetchOpenIdConfiguration,
          fetchOauthAuthorizationServerConfig, FetchOutcome.failed]
  | response ok body =>
    cases ok with
    | true =>
      simp [fetchAuthorizationServerMetadata, fetchOpenIdConfiguration,
        FetchOutcome.failed]
    | false =>
      cases oauthAS with
      | netError =>
        simp [fetchAuthorizationServerMetadata, fetchOpenIdConfiguration,
          fetchOauthAuthorizationServerConfig, FetchOutcome.failed]
      | response ok' body' =>
        cases ok' <;>
          simp [fetchAuthorizationServerMetadata, fetchOpenIdConfiguration,
            fetchOauthAuthorizationServerConfig, FetchOutcome.failed]

/-- When the first fetch succeeds, its body decides the outcome. -/
lemma fetchASMeta_result_first (issuer : String) (oauthAS : FetchOutcome)
    (body : Option Jval) :
    (fetchAuthorizationServerMetadata issuer (.response true body) oauthAS).1 =
      extractServerEndpoints body := by
  simp [fetchAuthorizationServerMetadata, fetchOpenIdConfiguration]

/-- When the first fetch fails and the fallback succeeds, the fallback body
decides the outcome. -/
lemma fetchASMeta_result_fallback (issuer : String) (oidc : FetchOutcome)
    (body : Option Jval) (h : oidc.failed = true) :
    (fetchAuthorizationServerMetadata issuer oidc (.response true body)).1 =
      extractServerEndpoints body := by
  cases oidc with
  | netError =>
    simp [fetchAuthorizationServerMetadata, fetchOpenIdConfiguration,
      fetchOauthAuthorizationServerConfig]
  | response ok body' =>
    cases ok with
    | true => simp [FetchOutcome.failed] at h
    | false =>
      simp [fetchAuthorizationServerMetadata, fetchOpenIdConfiguration,
        fetchOauthAuthorizationServerConfig]

/-- A body without a string `token_endpoint` is rejected with the
token-endpoint error code. -/
lemma extract_missing_token (json : Jval)
    (h : json.hasStr "token_endpoint" = false) :
    extractServerEndpoints (some json) = .error missingTokenEndpointError := by
  unfold Jval.hasStr at h
  cases hl : json.lookup "token_endpoint" with
  | none => simp [extractServerEndpoints, hl]
  | some v =>
    rw [hl] at h
    cases v with
    | str s => simp at h
    | num n => simp [extractServerEndpoints, hl]
    | bool b => simp [extractServerEndpoints, hl]
    | null => simp [extractServerEndpoints, hl]
    | arr xs => simp [extractServerEndpoints, hl]
    | obj fs => simp [extractServerEndpoints, hl]

/-- A body with a string `token_endpoint` but no string
`device_authorization_endpoint` is rejected with the device-endpoint error
code. -/
lemma extract_missing_device (json : Jval)
    (ht : json.hasStr "token_endpoint" = true)
    (hd : json.hasStr "device_authorization_endpoint" = false) :
    extractServerEndpoints (some json) = .error missingDeviceEndpointError := by
  obtain ⟨t, hlt⟩ := hasStr_lookup json "token_endpoint" ht
  unfold Jval.hasStr at hd
  cases hl : json.lookup "device_authorization_endpoint" with
  | none => simp [extractServerEndpoints, hlt, hl]
  | some v =>
    rw [hl] at hd
    cases v with
    | str s => simp at hd
    | num n => simp [extractServerEndpoints, hlt, hl]
    | bool b => simp [extractServerEndpoints, hlt, hl]
    | null => simp [extractServerEndpoints, hlt, hl]
    | arr xs => simp [extractServerEndpoints, hlt, hl]
    | obj fs => simp [extractServerEndpoints, hlt, hl]

/-! ## Protected-resource metadata and config discovery
(`fetchProtectedResourceMetadata` lines 368–436, `discoverOAuthConfig`
lines 225–270)

`new URL(baseUrl).origin` is a URL-library call, taken as the parameter
`origin : String → String`. -/

/-- The result of `fetchProtectedResourceMetadata`: issuer (first
authorization server), device-flow client id, optional client secret.  (The
source forwards any defined `glean_device_flow_client_sec` value untyped;
only string secrets are representable in its declared interface, so the
model keeps string secrets.) -/
structure ProtectedResourceMetadata where
  issuer : String
  clientId : String
  clientSecret : Option String
  deriving DecidableEq, Repr

/-- `fetchProtectedResourceMetadata` from `auth.ts`: GET
`{origin}/.well-known/oauth-protected-resource`; distinct error codes for a
thrown fetch, a non-2xx status, an unparseable body, a missing/empty
`authorization_servers` array (or non-string first element) and a missing
string `glean_device_flow_client_id`.  The single fetched URL is logged. -/
def fetchProtectedResourceMetadata (origin : String) (o : FetchOutcome) :
    Except AuthError ProtectedResourceMetadata × List String :=
  (match o with
   | .netError =>
     .error { message := "Unable to fetch OAuth protected resource metadata: please contact your Glean administrator and ensure device flow authorization is configured correctly."
              code := .ProtectedResourceMetadataNetwork }
   | .response ok body =>
     if !ok then
       .error { message := "Unable to fetch OAuth protected resource metadata: please contact your Glean administrator and ensure device flow authorization is configured correctly."
                code := .ProtectedResourceMetadataNotOk }
     else
       match body with
       | none =>
         .error { message := "Unexpected OAuth protected resource metadata: please contact your Glean administrator and ensure device flow authorization is configured correctly."
                  code := .ProtectedResourceMetadataParse }
       | some responseJson =>
         let issuer : Option Jval :=
           match responseJson.lookup "authorization_servers" with
           | some (.arr (x :: _)) => some x
           | _ => none
         match issuer with
         | some (.str issuerS) =>
           match responseJson.lookup "glean_device_flow_client_id" with
           | some (.str clientIdS) =>
             .ok { issuer := issuerS
                   clientId := clientIdS
                   clientSecret :=
                     match responseJson.lookup "glean_device_flow_client_sec" with
                     | some (.str s) => some s
                     | _ => none }
           | _ =>
             .error { message := "OAuth protected resource metadata did not include a device flow client id: please contact your Glean administrator and ensure device flow authorization is configured correctly."
                      code := .ProtectedResourceMetadataMissingClientId }
         | _ =>
           .error { message := "OAuth protected resource metadata did not include any authorization servers: please contact your Glean administrator and ensure device flow authorization is configured correctly."
                    code := .ProtectedResourceMetadataMissingAuthServers },
   [origin ++ "/.well-known/oauth-protected-resource"])

/-- The network faces of one discovery run: the protected-resource fetch
and the two authorization-server metadata fetches. -/
structure DiscoveryNet where
  protectedResource : FetchOutcome
  oidc : FetchOutcome
  oauthAS : FetchOutcome

/-- `discoverOAuthConfig` from `auth.ts` (the caller passes the config, as
`ensureAuthTokenPresence`'s callees do): a token config is an internal
error; a complete OAuth config is returned as-is; a basic config uses its
own `issuer`/`clientId` when both are strings and otherwise fetches the
protected-resource metadata, then always fetches the authorization-server
metadata from the resulting issuer and assembles the complete config. -/
def discoverOAuthConfig (origin : String → String) (config : GleanConfig)
    (net : DiscoveryNet) : Except AuthError GleanOAuthConfig × List String :=
  match config with
  | .token _ _ =>
    (.error { message := "[internal error] attempting OAuth flow with a Glean-issued non-OAuth token"
              code := .InvalidConfig }, [])
  | .oauth cfg => (.ok cfg, [])
  | .basic baseUrl issuer₀ clientId₀ clientSecret₀ =>
    let step1 : Except AuthError (String × String × Option String) × List String :=
      match issuer₀, clientId₀ with
      | some issuer, some clientId => (.ok (issuer, clientId, clientSecret₀), [])
      | _, _ =>
        match fetchProtectedResourceMetadata (origin baseUrl) net.protectedResource with
        | (.ok md, log) => (.ok (md.issuer, md.clientId, md.clientSecret), log)
        | (.error e, log) => (.error e, log)
    match step1 with
    | (.error e, log) => (.error e, log)
    | (.ok (issuer, clientId, clientSecret), log) =>
      match fetchAuthorizationServerMetadata issuer net.oidc net.oauthAS with
      | (.ok (deviceAuthorizationEndpoint, tokenEndpoint), log₂) =>
        (.ok { baseUrl := baseUrl
               issuer := issuer
               clientId := clientId
               clientSecret := clientSecret
               authorizationEndpoint := deviceAuthorizationEndpoint
               tokenEndpoint := tokenEndpoint }, log ++ log₂)
      | (.error e, log₂) => (.error e, log ++ log₂)

/-- Whether a config is a basic config missing `issuer` or `clientId` as
strings — the condition under which (and only under which) C10 asserts
discovery performs metadata fetches. -/
def configMissingDiscoveryFields : GleanConfig → Bool
  | .basic _ issuer clientId _ => issuer.isNone || clientId.isNone
  | _ => false

/-- A concrete complete OAuth config. -/
def sampleOAuthConfig : GleanOAuthConfig :=
  { baseUrl := "https://app.glean.example"
    issuer := "https://id.example"
    clientId := "client-1"
    clientSecret := none
    authorizationEndpoint := "https://id.example/device"
    tokenEndpoint := "https://id.example/token" }

/-- A concrete discovery network where the OIDC metadata fetch succeeds
with both endpoints present. -/
def sampleDiscoveryNet : DiscoveryNet :=
  { protectedResource := .netError
    oidc := .response true (some (Jval.obj
      [("token_endpoint", .str "https://id.example/token"),
       ("device_authorization_endpoint", .str "https://id.example/device")]))
    oauthAS := .netError }

/-! ## Refresh component and orchestrator
(`fetchTokenViaRefresh` lines 464–523, `forceRefreshTokens` lines 438–459,
`forceAuthorize` lines 174–191, `ensureAuthTokenPresence` lines 62–82)

The token store, the interactive `authorize` flow (whose internals are the
C1–C3 models) and the network are oracles; each run records its observable
actions in an effect log.  `Effect.validateToken` stands for a
resource-server token validation call — it exists in the alphabet only so
that its absence from every log is a provable statement. -/

/-- Observable actions of a refresh/orchestrator run. -/
inductive Effect where
  | httpPost (url : String) (params : List (String × String))
  | loadTokensEff
  | saveTokensEff (t : Tokens)
  | authorizeFlow
  | refreshFlow
  | validateToken
  deriving DecidableEq, Repr

/-- What the token-endpoint POST of the refresh flow can do: throw during
`fetch`/`response.json()` or yield a parsed body with a status.  (The source
never consults the status flag for the refresh flow; it classifies the
parsed body.) -/
inductive TokenFetchOutcome where
  | netError
  | reply (status : Nat) (body : TokenBody)
  deriving DecidableEq, Repr

/-- The rejection for a token record with no refresh token. -/
def refreshTokenMissingError : AuthError :=
  { message := "Cannot refresh: no refresh token provided."
    code := .RefreshTokenMissing }

/-- `fetchTokenViaRefresh` from `auth.ts`: reject with `RefreshTokenMissing`
when the token record lacks a refresh token — before any request is issued —
otherwise POST the refresh-token grant to the token endpoint and classify
the parsed body. -/
def fetchTokenViaRefresh (now : Nat) (tokens : Tokens) (config : GleanOAuthConfig)
    (net : TokenFetchOutcome) : Except AuthError Tokens × List Effect :=
  match tokens.refreshToken with
  | none => (.error refreshTokenMissingError, [])
  | some refreshToken =>
    let params :=
      [("client_id", config.clientId)] ++
        (match config.clientSecret with
         | some s => [("client_secret", s)]
         | none => []) ++
        [("grant_type", "refresh_token"), ("refresh_token", refreshToken)]
    match net with
    | .netError =>
      (.error { message := "Unexpected response fetching access token."
                code := .UnexpectedAccessTokenResponse },
       [.httpPost config.tokenEndpoint params])
    | .reply status body =>
      match body with
      | .success r =>
        (.ok (Tokens.buildFromTokenResponse r now),
         [.httpPost config.tokenEndpoint params])
      | .err e =>
        (.error { message := "Unable to fetch token.  Server responded " ++
                    toString status ++ ": " ++ e.error
                  code := .FetchTokenServerError },
         [.httpPost config.tokenEndpoint params])

/-- Modelled from the spec: `getConfig({ discoverOAuth: true })` (external
config resolution) yields either a token config or a complete OAuth
config. -/
inductive ResolvedConfig where
  | token (baseUrl apiToken : String)
  | oauth (cfg : GleanOAuthConfig)
  deriving DecidableEq, Repr

/-- Whether the re-resolved config is the token variant. -/
def ResolvedConfig.isToken : ResolvedConfig → Bool
  | .token _ _ => true
  | _ => false

/-- The rejection for refreshing under a Glean-token config. -/
def gleanTokenRefreshError : AuthError :=
  { message := "Cannot refresh OAuth access token when using glean-token configuration.  Specify GLEAN_OAUTH_ISSUER and GLEAN_OAUTH_CLIENT_ID and not GLEAN_API_TOKEN to use OAuth."
    code := .GleanTokenConfigUsedForOAuthRefresh }

/-- The rejection when no tokens are stored to refresh. -/
def refreshTokenNotFoundError : AuthError :=
  { message := "Cannot refresh: unable to locate refresh token."
    code := .RefreshTokenNotFound }

/-- `forceRefreshTokens` from `auth.ts`: re-resolve the config (with
discovery), reject token configs, load the stored tokens (rejecting when
absent), run the refresh exchange and persist the new tokens.  The leading
`.refreshFlow` effect marks entry into the refresh component (its entry
trace). -/
def forceRefreshTokens (configD : ResolvedConfig) (store : Option Tokens)
    (refreshNet : TokenFetchOutcome) (now : Nat) :
    Except AuthError Unit × Option Tokens × List Effect :=
  match configD with
  | .token _ _ => (.error gleanTokenRefreshError, store, [.refreshFlow])
  | .oauth cfg =>
    match store with
    | none => (.error refreshTokenNotFoundError, store, [.refreshFlow, .loadTokensEff])
    | some tokens =>
      match fetchTokenViaRefresh now tokens cfg refreshNet with
      | (.ok newTokens, log) =>
        (.ok (), some newTokens,
         [.refreshFlow, .loadTokensEff] ++ log ++ [.saveTokensEff newTokens])
      | (.error e, log) => (.error e, store, [.refreshFlow, .loadTokensEff] ++ log)

/-- The rejection for authorizing under a Glean-token config. -/
def gleanTokenOAuthError : AuthError :=
  { message := "Cannot get OAuth access token when using glean-token configuration.  Specify GLEAN_OAUTH_ISSUER and GLEAN_OAUTH_CLIENT_ID and not GLEAN_API_TOKEN to use OAuth."
    code := .GleanTokenConfigUsedForOAuth }

/-- `forceAuthorize` from `auth.ts`, in the no-argument form
`ensureAuthTokenPresence` uses: re-resolve the config with discovery,
reject token configs, run the interactive `authorize` flow (an oracle
here — its internals are the C1–C3 models) and persist any tokens it
yields. -/
def forceAuthorize (configD : ResolvedConfig) (store : Option Tokens)
    (authorizeResult : Except AuthError (Option Tokens)) :
    Except AuthError (Option Tokens) × Option Tokens × List Effect :=
  match configD with
  | .token _ _ => (.error gleanTokenOAuthError, store, [])
  | .oauth _ =>
    match authorizeResult with
    | .error e => (.error e, store, [.authorizeFlow])
    | .ok none => (.ok none, store, [.authorizeFlow])
    | .ok (some t) => (.ok (some t), some t, [.authorizeFlow, .saveTokensEff t])

/-- Inputs of one `ensureAuthTokenPresence` run: the two config
resolutions, the token store, and the oracles for the interactive authorize
flow and the refresh network exchange. -/
structure OrchEnv where
  config : GleanConfig
  configD : ResolvedConfig
  store : Option Tokens
  authorizeResult : Except AuthError (Option Tokens)
  refreshNet : TokenFetchOutcome
  now : Nat

/-- The tail of `ensureAuthTokenPresence`:
`if (tokens && tokens.isExpired()) { await forceRefreshTokens(); tokens =
loadTokens(); } return tokens !== null`. -/
def ensureAuthTail (env : OrchEnv) (tokens : Option Tokens) (store : Option Tokens)
    (log : List Effect) : Except AuthError Bool × Option Tokens × List Effect :=
  match tokens with
  | none => (.ok false, store, log)
  | some t =>
    if t.isExpired env.now then
      match forceRefreshTokens env.configD store env.refreshNet env.now with
      | (.ok _, store', logR) =>
        (.ok store'.isSome, store', log ++ logR ++ [.loadTokensEff])
      | (.error e, store', logR) => (.error e, store', log ++ logR)
    else (.ok true, store, log)

/-- `ensureAuthTokenPresence` from `auth.ts`: token configs succeed
trivially; otherwise load tokens, authorize when none are stored, refresh
and reload when the tokens at hand are expired, and report whether a token
is now present. -/
def ensureAuthTokenPresence (env : OrchEnv) :
    Except AuthError Bool × Option Tokens × List Effect :=
  if isGleanTokenConfig env.config then (.ok true, env.store, [])
  else
    match env.store with
    | none =>
      match forceAuthorize env.configD env.store env.authorizeResult with
      | (.ok tokens, store', logA) =>
        ensureAuthTail env tokens store' ([.loadTokensEff] ++ logA)
      | (.error e, store', logA) => (.error e, store', [.loadTokensEff] ++ logA)
    | some t => ensureAuthTail env (some t) env.store [.loadTokensEff]

/-- Every `forceRefreshTokens` run marks entry into the refresh
component. -/
lemma forceRefreshTokens_refreshFlow (configD : ResolvedConfig)
    (store : Option Tokens) (net : TokenFetchOutcome) (now : Nat) :
    Effect.refreshFlow ∈ (forceRefreshTokens configD store net now).2.2 := by
  cases configD with
  | token b a => simp [forceRefreshTokens]
  | oauth cfg =>
    cases store with
    | none => simp [forceRefreshTokens]
    | some tokens =>
      rcases h : fetchTokenViaRefresh now tokens cfg net with ⟨res, log⟩
      cases res <;> simp [forceRefreshTokens, h]

/-- The refresh exchange never performs a resource-server validation. -/
lemma fetchTokenViaRefresh_no_validate (now : Nat) (tokens : Tokens)
    (cfg : GleanOAuthConfig) (net : TokenFetchOutcome) :
    Effect.validateToken ∉ (fetchTokenViaRefresh now tokens cfg net).2 := by
  unfold fetchTokenViaRefresh
  cases tokens.refreshToken with
  | none => simp
  | some r =>
    cases net with
    | netError => simp
    | reply status body => cases body <;> simp

/-- `forceRefreshTokens` never performs a resource-server validation. -/
lemma forceRefreshTokens_no_validate (configD : ResolvedConfig)
    (store : Option Tokens) (net : TokenFetchOutcome) (now : Nat) :
    Effect.validateToken ∉ (forceRefreshTokens configD store net now).2.2 := by
  cases configD with
  | token b a => simp [forceRefreshTokens]
  | oauth cfg =>
    cases store with
    | none => simp [forceRefreshTokens]
    | some tokens =>
      have hnv := fetchTokenViaRefresh_no_validate now tokens cfg net
      rcases h : fetchTokenViaRefresh now tokens cfg net with ⟨res, log⟩
      rw [h] at hnv
      cases res <;> simp [forceRefreshTokens, h, hnv]

/-- `forceAuthorize` never performs a resource-server validation. -/
lemma forceAuthorize_no_validate (configD : ResolvedConfig)
    (store : Option Tokens) (authorizeResult : Except AuthError (Option Tokens)) :
    Effect.validateToken ∉ (forceAuthorize configD store authorizeResult).2.2 := by
  cases configD with
  | token b a => simp [forceAuthorize]
  | oauth cfg =>
    cases authorizeResult with
    | error e => simp [forceAuthorize]
    | ok tokens => cases tokens <;> simp [forceAuthorize]

/-- The expiry-check tail preserves the absence of validation effects. -/
lemma ensureAuthTail_no_validate (env : OrchEnv) (tokens store : Option Tokens)
    (log : List Effect) (h : Effect.validateToken ∉ log) :
    Effect.validateToken ∉ (ensureAuthTail env tokens store log).2.2 := by
  cases tokens with
  | none => simpa [ensureAuthTail] using h
  | some t =>
    by_cases hexp : t.isExpired env.now = true
    · have hR := forceRefreshTokens_no_validate env.configD store env.refreshNet env.now
      rcases hRc : forceRefreshTokens env.configD store env.refreshNet env.now
        with ⟨res, store', logR⟩
      rw [hRc] at hR
      cases res <;> simp [ensureAuthTail, hexp, hRc, h, hR]
    · have hexp' : t.isExpired env.now = false := by simpa using hexp
      simpa [ensureAuthTail, hexp'] using h

/-- Effects logged before the expiry-check tail survive it. -/
lemma ensureAuthTail_log_mono (env : OrchEnv) (tokens store : Option Tokens)
    (log : List Effect) (e : Effect) (h : e ∈ log) :
    e ∈ (ensureAuthTail env tokens store log).2.2 := by
  cases tokens with
  | none => simpa [ensureAuthTail] using h
  | some t =>
    by_cases hexp : t.isExpired env.now = true
    · rcases hRc : forceRefreshTokens env.configD store env.refreshNet env.now
        with ⟨res, store', logR⟩
      cases res <;> simp [ensureAuthTail, hexp, hRc, h]
    · have hexp' : t.isExpired env.now = false := by simpa using hexp
      simpa [ensureAuthTail, hexp'] using h

/-- On expired tokens the tail always enters the refresh component. -/
lemma ensureAuthTail_expired_refreshFlow (env : OrchEnv) (t : Tokens)
    (store : Option Tokens) (log : List Effect)
    (hexp : t.isExpired env.now = true) :
    Effect.refreshFlow ∈ (ensureAuthTail env (some t) store log).2.2 := by
  have hR := forceRefreshTokens_refreshFlow env.configD store env.refreshNet env.now
  rcases hRc : forceRefreshTokens env.configD store env.refreshNet env.now
    with ⟨res, store', logR⟩
  rw [hRc] at hR
  cases res <;> simp [ensureAuthTail, hexp, hRc, hR]

/-- When the tail resolves after refreshing expired tokens, its last effect
is the token reload. -/
lemma ensureAuthTail_expired_getLast (env : OrchEnv) (t : Tokens)
    (store : Option Tokens) (log : List Effect) (b : Bool)
    (hexp : t.isExpired env.now = true)
    (hok : (ensureAuthTail env (some t) store log).1 = .ok b) :
    (ensureAuthTail env (some t) store log).2.2.getLast? =
      some Effect.loadTokensEff := by
  rcases hRc : forceRefreshTokens env.configD store env.refreshNet env.now
    with ⟨res, store', logR⟩
  cases res with
  | ok u => simp [ensureAuthTail, hexp, hRc, List.getLast?_concat]
  | error e => simp [ensureAuthTail, hexp, hRc] at hok

/-- A resolving tail run that starts with `tokens = store` (the invariant
at both call sites) reports exactly whether the final store holds
tokens. -/
lemma ensureAuthTail_ok_isSome (env : OrchEnv) (store : Option Tokens)
    (log : List Effect) (b : Bool)
    (hok : (ensureAuthTail env store store log).1 = .ok b) :
    b = (ensureAuthTail env store store log).2.1.isSome := by
  cases store with
  | none =>
    simp [ensureAuthTail] at hok ⊢
    exact hok
  | some t =>
    by_cases hexp : t.isExpired env.now = true
    · rcases hRc : forceRefreshTokens env.configD (some t) env.refreshNet env.now
        with ⟨res, store', logR⟩
      cases res with
      | ok u =>
        simp [ensureAuthTail, hexp, hRc] at hok ⊢
        exact hok.symm
      | error e => simp [ensureAuthTail, hexp, hRc] at hok
    · have hexp' : t.isExpired env.now = false := by simpa using hexp
      simp [ensureAuthTail, hexp'] at hok ⊢
      exact hok

/-- A stored token pair that is expired at `now = 5000` and carries a
refresh token. -/
def sampleExpiredTokens : Tokens :=
  { accessToken := "old", refreshToken := some "ref", expiresAt := some 1000 }

/-- An orchestrator run under a Glean-token config. -/
def sampleTokenEnv : OrchEnv :=
  { config := .token "https://app.glean.example" "glean-api-token"
    configD := .token "https://app.glean.example" "glean-api-token"
    store := none
    authorizeResult := .ok none
    refreshNet := .netError
    now := 0 }

/-- A stored token pair carrying no refresh token. -/
def sampleNoRefreshTokens : Tokens :=
  { accessToken := "acc", refreshToken := none, expiresAt := none }

/-- An orchestrator run under a non-token config with expired stored
tokens and a succeeding refresh exchange. -/
def sampleOrchEnv : OrchEnv :=
  { config := .basic "https://app.glean.example" none none none
    configD := .oauth sampleOAuthConfig
    store := some sampleExpiredTokens
    authorizeResult := .ok none
    refreshNet := .reply 200 (.success sampleTokenResponse)
    now := 5000 }

end GleanAuth

namespace GleanAuth

/-- **C6.** For every OAuth config, `getOAuthScopes` returns a scope string
determined solely by the issuer's registrable domain: domain `google.com`
yields the Google-specific scope string, and every other parse result
(including `okta.com` and a failed parse) yields
`"openid profile offline_access"`. -/
theorem c6_scope_selection (parseDomain : String → Option String)
    (config : GleanOAuthConfig) :
    getOAuthScopes parseDomain config =
      if (parseDomain config.issuer).getD "" = "google.com" then
        "openid profile https://www.googleapis.com/auth/userinfo.email"
      else
        "openid profile offline_access" := by
  unfold getOAuthScopes
  by_cases h : (parseDomain config.issuer).getD "" = "google.com"
  · simp [h]
  · simp [h]

/-- **C1.** If the token endpoint answers `authorization_pending` to each of
the first `N` requests and a token-success payload to request `N + 1`,
`pollForToken` resolves with that payload, issues exactly `N + 1` requests,
and waits `interval` seconds between consecutive requests (request `i` is
issued `i × interval × 1000` ms after the first tick), hence at least
`N × interval` seconds elapse before resolving.  The hypothesis `hdl` states
that the `(N + 1)`-th request happens before the 10-minute deadline, which
the claim presupposes by speaking of the endpoint's response to request
`N + 1`; `hfuel` only asks the modelling recursion bound to cover the run. -/
theorem c1_poll_pending_then_success (fetchToken : Nat → TokenBody)
    (authResponse : AuthResponse) (r : TokenResponse) (N fuel : Nat)
    (hpend : ∀ i, i < N → ∃ e, fetchToken i = .err e ∧ e.error = "authorization_pending")
    (hsucc : fetchToken N = .success r)
    (hdl : N * (authResponse.interval * 1000) < 10 * 60 * 1000)
    (hfuel : N < fuel) :
    ∃ run, pollForToken fetchToken authResponse fuel = some run ∧
      run.result = .ok r ∧
      run.requestTimes.length = N + 1 ∧
      run.requestTimes =
        (List.range (N + 1)).map (fun i => i * (authResponse.interval * 1000)) ∧
      run.finishTime = N * (authResponse.interval * 1000) := by
  have h := pollForTokenAux_pending_then_success fetchToken
    (authResponse.interval * 1000) (10 * 60 * 1000) r N 0 0 fuel
    (by simpa using hpend) (by simpa using hsucc) (by simpa using hdl) hfuel
  rw [pollForToken, h]
  refine ⟨_, rfl, rfl, by simp, by simp, by simp⟩

/-- Witness for C1: with a 5-second interval and an endpoint pending on the
first two requests, the run resolves with the success payload after three
requests at 0 ms, 5000 ms and 10000 ms. -/
theorem c1_poll_pending_then_success_witness :
    ∃ run, pollForToken samplePendingOracle sampleAuthResponse 3 = some run ∧
      run.result = .ok sampleTokenResponse ∧
      run.requestTimes.length = 2 + 1 ∧
      run.requestTimes =
        (List.range (2 + 1)).map (fun i => i * (sampleAuthResponse.interval * 1000)) ∧
      run.finishTime = 2 * (sampleAuthResponse.interval * 1000) :=
  c1_poll_pending_then_success samplePendingOracle sampleAuthResponse
    sampleTokenResponse 2 3
    (by
      intro i hi
      interval_cases i <;> exact ⟨{ error := "authorization_pending" }, rfl, rfl⟩)
    rfl (by decide) (by decide)

/-- **C2.** If the token endpoint never leaves `authorization_pending`,
`pollForToken` rejects with the 10-minute timeout error
(`OAuthPollingTimeout`); the rejection happens at an elapsed time since the
first tick of at least 600 seconds (hence also not before 599 seconds), the
deadline being checked against the first tick's start at the top of every
tick.  `hint` reflects that the server-advised interval is at least one
second (with an instantaneous-request fake clock a zero interval would never
advance time); `hfuel` only asks the modelling recursion bound to cover the
run. -/
theorem c2_poll_timeout (fetchToken : Nat → TokenBody)
    (authResponse : AuthResponse) (fuel : Nat)
    (hpend : ∀ i, ∃ e, fetchToken i = .err e ∧ e.error = "authorization_pending")
    (hint : 1 ≤ authResponse.interval)
    (hfuel : 10 * 60 * 1000 + 1 ≤ fuel) :
    ∃ run, pollForToken fetchToken authResponse fuel = some run ∧
      run.result = .error pollTimeoutError ∧
      pollTimeoutError.code = .OAuthPollingTimeout ∧
      600 * 1000 ≤ run.finishTime ∧
      599 * 1000 ≤ run.finishTime := by
  obtain ⟨run, hrun, hres, hfin⟩ := pollForTokenAux_always_pending fetchToken
    (authResponse.interval * 1000) (10 * 60 * 1000) hpend
    (by omega) fuel 0 0 (by omega) (by omega)
  exact ⟨run, hrun, hres, rfl, hfin, by omega⟩

/-- Witness for C2: a 5-second interval and an always-pending endpoint give
a run rejecting with the timeout error no earlier than 600 seconds in. -/
theorem c2_poll_timeout_witness :
    ∃ run, pollForToken alwaysPendingOracle sampleAuthResponse 600001 = some run ∧
      run.result = .error pollTimeoutError ∧
      pollTimeoutError.code = .OAuthPollingTimeout ∧
      600 * 1000 ≤ run.finishTime ∧
      599 * 1000 ≤ run.finishTime :=
  c2_poll_timeout alwaysPendingOracle sampleAuthResponse 600001
    (fun _ => ⟨{ error := "authorization_pending" }, rfl, rfl⟩)
    (by decide) (by decide)

/-- **C3.** In every authorization attempt in which the polling engine
settles before the user presses Enter (the run contains `pollerSettled`
before any `userEnter`), the cancellation signal is raised and the
browser-open side effect is never invoked; moreover, in every run whatsoever
the browser-open side effect is invoked at most once. -/
theorem c3_race_safety (events l₁ l₂ : List RaceEvent)
    (hsplit : events = l₁ ++ RaceEvent.pollerSettled :: l₂)
    (hnoenter : RaceEvent.userEnter ∉ l₁) :
    (raceRun events).aborted = true ∧
      (raceRun events).browserOpens = 0 ∧
      ∀ evs : List RaceEvent, (raceRun evs).browserOpens ≤ 1 := by
  have hpre := race_pre_settle l₁ hnoenter RaceState.init ⟨rfl, by intro h; cases h⟩
  set s₁ := l₁.foldl raceStep RaceState.init with hs₁
  have hsettle : (raceStep s₁ .pollerSettled).aborted = true ∧
      (raceStep s₁ .pollerSettled).browserOpens = 0 := ⟨rfl, hpre.1⟩
  have hpost := race_post_settle l₂ (raceStep s₁ .pollerSettled) hsettle
  have hrun : raceRun events = l₂.foldl raceStep (raceStep s₁ .pollerSettled) := by
    rw [hsplit, raceRun, List.foldl_append, List.foldl_cons]
  refine ⟨by rw [hrun]; exact hpost.1, by rw [hrun]; exact hpost.2, ?_⟩
  intro evs
  exact (race_at_most_once evs RaceState.init ⟨fun _ => rfl, Nat.zero_le 1⟩).2

/-- **C4.** For every run whose config is a Glean-token config,
`ensureAuthTokenPresence` returns `true` with an empty effect log — in
particular no network call, no token load and no authorization flow — and
leaves the store untouched. -/
theorem c4_token_config_trivial (env : OrchEnv)
    (h : isGleanTokenConfig env.config = true) :
    ensureAuthTokenPresence env = (.ok true, env.store, []) := by
  simp [ensureAuthTokenPresence, h]

/-- Witness for C4: a token-config run returns `true` with no effects. -/
theorem c4_token_config_trivial_witness :
    ensureAuthTokenPresence sampleTokenEnv = (.ok true, none, []) :=
  c4_token_config_trivial sampleTokenEnv rfl

/-- **C8.** Refreshing a token record lacking a refresh token rejects with
the `RefreshTokenMissing` error and an empty effect log — before any
network call — and at the `forceRefreshTokens` level the store is returned
unchanged with only the entry marker and the token load in the log. -/
theorem c8_refresh_without_refresh_token (now : Nat) (tokens : Tokens)
    (config : GleanOAuthConfig) (net : TokenFetchOutcome)
    (h : tokens.refreshToken = none) :
    fetchTokenViaRefresh now tokens config net =
        (.error refreshTokenMissingError, []) ∧
      refreshTokenMissingError.code = .RefreshTokenMissing ∧
      ∀ cfg : GleanOAuthConfig,
        forceRefreshTokens (.oauth cfg) (some tokens) net now =
          (.error refreshTokenMissingError, some tokens,
            [Effect.refreshFlow, Effect.loadTokensEff]) := by
  have hf : ∀ c : GleanOAuthConfig, fetchTokenViaRefresh now tokens c net =
      (.error refreshTokenMissingError, []) := by
    intro c
    simp [fetchTokenViaRefresh, h]
  refine ⟨hf config, rfl, ?_⟩
  intro cfg
  simp [forceRefreshTokens, hf cfg]

/-- Witness for C8: a token record with no refresh token is rejected
without a request, and the store keeps the old record. -/
theorem c8_refresh_without_refresh_token_witness :
    fetchTokenViaRefresh 0 sampleNoRefreshTokens sampleOAuthConfig .netError =
        (.error refreshTokenMissingError, []) ∧
      refreshTokenMissingError.code = .RefreshTokenMissing ∧
      ∀ cfg : GleanOAuthConfig,
        forceRefreshTokens (.oauth cfg) (some sampleNoRefreshTokens) .netError 0 =
          (.error refreshTokenMissingError, some sampleNoRefreshTokens,
            [Effect.refreshFlow, Effect.loadTokensEff]) :=
  c8_refresh_without_refresh_token 0 sampleNoRefreshTokens sampleOAuthConfig
    .netError rfl

/-- **C5.** For every `ensureAuthTokenPresence` run under a non-token
config (with the re-resolved config non-token too — discovery never yields
a token config): when no tokens are stored the full authorize flow runs;
when stored tokens are expired the refresh component is entered and, if the
call resolves, the final effect is the token reload; every resolving call
returns exactly whether a usable token is now present in the store; and no
run validates the token against the resource server. -/
theorem c5_ensure_non_token (env : OrchEnv)
    (hconf : isGleanTokenConfig env.config = false)
    (hconfD : env.configD.isToken = false) :
    (env.store = none → Effect.authorizeFlow ∈ (ensureAuthTokenPresence env).2.2) ∧
      (∀ t, env.store = some t → t.isExpired env.now = true →
        Effect.refreshFlow ∈ (ensureAuthTokenPresence env).2.2 ∧
        ∀ b, (ensureAuthTokenPresence env).1 = .ok b →
          (ensureAuthTokenPresence env).2.2.getLast? = some Effect.loadTokensEff) ∧
      (∀ b, (ensureAuthTokenPresence env).1 = .ok b →
        b = (ensureAuthTokenPresence env).2.1.isSome) ∧
      Effect.validateToken ∉ (ensureAuthTokenPresence env).2.2 := by
  rcases hD : env.configD with ⟨bu, ak⟩ | cfg
  · rw [hD] at hconfD
    simp [ResolvedConfig.isToken] at hconfD
  · rcases hs : env.store with _ | t
    · rcases hA : env.authorizeResult with e | tokens
      · have heq : ensureAuthTokenPresence env =
            (.error e, none, [Effect.loadTokensEff, Effect.authorizeFlow]) := by
          simp [ensureAuthTokenPresence, hconf, hs, forceAuthorize, hD, hA]
        refine ⟨?_, ?_, ?_, ?_⟩
        · intro _
          rw [heq]
          simp
        · intro t hts
          simp at hts
        · intro b hb
          rw [heq] at hb
          simp at hb
        · rw [heq]
          simp
      · rcases tokens with _ | t'
        · have heq : ensureAuthTokenPresence env =
              ensureAuthTail env none none
                [Effect.loadTokensEff, Effect.authorizeFlow] := by
            simp [ensureAuthTokenPresence, hconf, hs, forceAuthorize, hD, hA]
          refine ⟨?_, ?_, ?_, ?_⟩
          · intro _
            rw [heq]
            exact ensureAuthTail_log_mono env none none _ _ (by simp)
          · intro t hts
            simp at hts
          · intro b hb
            rw [heq] at hb ⊢
            exact ensureAuthTail_ok_isSome env none _ b hb
          · rw [heq]
            exact ensureAuthTail_no_validate env none none _ (by simp)
        · have heq : ensureAuthTokenPresence env =
              ensureAuthTail env (some t') (some t')
                [Effect.loadTokensEff, Effect.authorizeFlow,
                 Effect.saveTokensEff t'] := by
            simp [ensureAuthTokenPresence, hconf, hs, forceAuthorize, hD, hA]
          refine ⟨?_, ?_, ?_, ?_⟩
          · intro _
            rw [heq]
            exact ensureAuthTail_log_mono env (some t') (some t') _ _ (by simp)
          · intro t hts
            simp at hts
          · intro b hb
            rw [heq] at hb ⊢
            exact ensureAuthTail_ok_isSome env (some t') _ b hb
          · rw [heq]
            exact ensureAuthTail_no_validate env (some t') (some t') _ (by simp)
    · have heq : ensureAuthTokenPresence env =
          ensureAuthTail env (some t) (some t) [Effect.loadTokensEff] := by
        simp [ensureAuthTokenPresence, hconf, hs]
      refine ⟨?_, ?_, ?_, ?_⟩
      · intro h
        simp at h
      · intro t' hts hexp
        injection hts with hts
        subst hts
        refine ⟨?_, ?_⟩
        · rw [heq]
          exact ensureAuthTail_expired_refreshFlow env t (some t) _ hexp
        · intro b hb
          rw [heq] at hb ⊢
          exact ensureAuthTail_expired_getLast env t (some t) _ b hexp hb
      · intro b hb
        rw [heq] at hb ⊢
        exact ensureAuthTail_ok_isSome env (some t) _ b hb
      · rw [heq]
        exact ensureAuthTail_no_validate env (some t) (some t) _ (by simp)

/-- Witness for C5: a non-token run with expired stored tokens refreshes,
reloads last, and reports the store's final contents. -/
theorem c5_ensure_non_token_witness :
    (sampleOrchEnv.store = none →
        Effect.authorizeFlow ∈ (ensureAuthTokenPresence sampleOrchEnv).2.2) ∧
      (∀ t, sampleOrchEnv.store = some t →
        t.isExpired sampleOrchEnv.now = true →
        Effect.refreshFlow ∈ (ensureAuthTokenPresence sampleOrchEnv).2.2 ∧
        ∀ b, (ensureAuthTokenPresence sampleOrchEnv).1 = .ok b →
          (ensureAuthTokenPresence sampleOrchEnv).2.2.getLast? =
            some Effect.loadTokensEff) ∧
      (∀ b, (ensureAuthTokenPresence sampleOrchEnv).1 = .ok b →
        b = (ensureAuthTokenPresence sampleOrchEnv).2.1.isSome) ∧
      Effect.validateToken ∉ (ensureAuthTokenPresence sampleOrchEnv).2.2 :=
  c5_ensure_non_token sampleOrchEnv rfl rfl

/-- **C10 (counterexample).** The claim "discovery fetches metadata only
when the input is a basic config missing `issuer` or `clientId` as strings"
fails: a basic config carrying both `issuer` and `clientId` as strings still
makes `discoverOAuthConfig` fetch the authorization-server metadata — the
fetch log is non-empty although no discovery field is missing. -/
theorem c10_discovery_counterexample :
    (discoverOAuthConfig (fun s => s)
        (GleanConfig.basic "https://app.glean.example" (some "https://id.example")
          (some "client-1") none)
        sampleDiscoveryNet).2 ≠ [] ∧
      configMissingDiscoveryFields
        (GleanConfig.basic "https://app.glean.example" (some "https://id.example")
          (some "client-1") none) = false := by
  constructor
  · have h : (discoverOAuthConfig (fun s => s)
        (GleanConfig.basic "https://app.glean.example" (some "https://id.example")
          (some "client-1") none)
        sampleDiscoveryNet).2 =
        ["https://id.example/.well-known/openid-configuration"] := rfl
    rw [h]
    simp
  · rfl

/-- **C10 (amended).** For every already-complete OAuth config,
`discoverOAuthConfig` returns it unchanged and performs no network request.
For a basic config carrying both `issuer` and `clientId` as strings, no
protected-resource metadata is fetched but the authorization-server
metadata is still fetched (the fetch log equals the authorization-server
metadata fetch log, which starts with the OIDC discovery URL); the
protected-resource metadata endpoint is fetched exactly when the basic
config is missing `issuer` or `clientId` as strings, in which case it is
the first fetch. -/
theorem c10_discovery_behavior (origin : String → String) (net : DiscoveryNet)
    (cfg : GleanOAuthConfig) (baseUrl issuer clientId : String)
    (clientSecret : Option String) :
    discoverOAuthConfig origin (.oauth cfg) net = (.ok cfg, []) ∧
      (discoverOAuthConfig origin
          (.basic baseUrl (some issuer) (some clientId) clientSecret) net).2 =
        (fetchAuthorizationServerMetadata issuer net.oidc net.oauthAS).2 ∧
      (∀ (bu : String) (is ci cs : Option String),
        (is.isNone || ci.isNone) = true →
        (discoverOAuthConfig origin (.basic bu is ci cs) net).2.head? =
          some (origin bu ++ "/.well-known/oauth-protected-resource")) := by
  refine ⟨rfl, ?_, ?_⟩
  · rcases hAS : fetchAuthorizationServerMetadata issuer net.oidc net.oauthAS
      with ⟨res, log₂⟩
    cases res with
    | ok p =>
      obtain ⟨dep, tep⟩ := p
      simp [discoverOAuthConfig, hAS]
    | error e => simp [discoverOAuthConfig, hAS]
  · intro bu is ci cs hmiss
    rcases hPR : fetchProtectedResourceMetadata (origin bu) net.protectedResource
      with ⟨pres, plog⟩
    have hplog : plog = [origin bu ++ "/.well-known/oauth-protected-resource"] := by
      have h2 : (fetchProtectedResourceMetadata (origin bu) net.protectedResource).2 =
          [origin bu ++ "/.well-known/oauth-protected-resource"] := rfl
      rw [hPR] at h2
      exact h2
    have main : ∀ (cId : Option String),
        (discoverOAuthConfig origin (.basic bu none cId cs) net).2.head? =
          some (origin bu ++ "/.well-known/oauth-protected-resource") := by
      intro cId
      cases pres with
      | error e =>
        cases cId <;> simp [discoverOAuthConfig, hPR, hplog]
      | ok md =>
        rcases hAS : fetchAuthorizationServerMetadata md.issuer net.oidc net.oauthAS
          with ⟨res, log₂⟩
        cases res with
        | ok p =>
          obtain ⟨dep, tep⟩ := p
          cases cId <;> simp [discoverOAuthConfig, hPR, hAS, hplog]
        | error e =>
          cases cId <;> simp [discoverOAuthConfig, hPR, hAS, hplog]
    cases is with
    | none => exact main ci
    | some i =>
      cases ci with
      | some c => simp at hmiss
      | none =>
        cases pres with
        | error e => simp [discoverOAuthConfig, hPR, hplog]
        | ok md =>
          rcases hAS : fetchAuthorizationServerMetadata md.issuer net.oidc net.oauthAS
            with ⟨res, log₂⟩
          cases res with
          | ok p =>
            obtain ⟨dep, tep⟩ := p
            simp [discoverOAuthConfig, hPR, hAS, hplog]
          | error e => simp [discoverOAuthConfig, hPR, hAS, hplog]

/-- Witness for C10 (amended): a complete OAuth config is returned as-is
with an empty fetch log, and a basic config missing its issuer starts with
the protected-resource fetch. -/
theorem c10_discovery_behavior_witness :
    discoverOAuthConfig (fun s => s) (.oauth sampleOAuthConfig) sampleDiscoveryNet =
        (.ok sampleOAuthConfig, []) ∧
      (discoverOAuthConfig (fun s => s)
          (GleanConfig.basic "https://app.glean.example" none (some "client-1") none)
          sampleDiscoveryNet).2.head? =
        some ("https://app.glean.example" ++ "/.well-known/oauth-protected-resource") :=
  have h := c10_discovery_behavior (fun s => s) sampleDiscoveryNet sampleOAuthConfig
    "https://app.glean.example" "https://id.example" "client-1" none
  ⟨h.1, h.2.2 "https://app.glean.example" none (some "client-1") none rfl⟩

/-- **C9.** `fetchAuthorizationServerMetadata` first fetches
`{issuer}/.well-known/openid-configuration`; whenever that fetch fails
(thrown network error or non-2xx status) it falls back to
`{issuer}/.well-known/oauth-authorization-server`; the body of whichever
fetch succeeds must carry string `token_endpoint` and
`device_authorization_endpoint` fields, and the absence of each one is a
distinct terminal error code. -/
theorem c9_as_metadata_discovery (issuer : String) (oidc oauthAS : FetchOutcome) :
    (fetchAuthorizationServerMetadata issuer oidc oauthAS).2.head? =
        some (issuer ++ "/.well-known/openid-configuration") ∧
      (oidc.failed = true →
        (fetchAuthorizationServerMetadata issuer oidc oauthAS).2 =
          [issuer ++ "/.well-known/openid-configuration",
           issuer ++ "/.well-known/oauth-authorization-server"] ∧
        ∀ body, oauthAS = FetchOutcome.response true body →
          (fetchAuthorizationServerMetadata issuer oidc oauthAS).1 =
            extractServerEndpoints body) ∧
      (∀ body, oidc = FetchOutcome.response true body →
        (fetchAuthorizationServerMetadata issuer oidc oauthAS).2 =
          [issuer ++ "/.well-known/openid-configuration"] ∧
        (fetchAuthorizationServerMetadata issuer oidc oauthAS).1 =
          extractServerEndpoints body) ∧
      (∀ json : Jval,
        (json.hasStr "token_endpoint" = false →
          extractServerEndpoints (some json) = .error missingTokenEndpointError) ∧
        (json.hasStr "token_endpoint" = true →
          json.hasStr "device_authorization_endpoint" = false →
          extractServerEndpoints (some json) = .error missingDeviceEndpointError)) ∧
      missingTokenEndpointError.code = .AuthServerMetadataMissingTokenEndpoint ∧
      missingDeviceEndpointError.code = .AuthServerMetadataMissingDeviceEndpoint ∧
      missingTokenEndpointError.code ≠ missingDeviceEndpointError.code := by
  refine ⟨?_, ?_, ?_, ?_, rfl, rfl, by decide⟩
  · rw [fetchASMeta_log]
    by_cases h : oidc.failed = true <;> simp [h]
  · intro hfail
    refine ⟨by rw [fetchASMeta_log, if_pos hfail], ?_⟩
    intro body hAS
    rw [hAS]
    exact fetchASMeta_result_fallback issuer oidc body hfail
  · intro body hoidc
    subst hoidc
    exact ⟨by rw [fetchASMeta_log]; rfl, fetchASMeta_result_first issuer oauthAS body⟩
  · intro json
    exact ⟨extract_missing_token json, extract_missing_device json⟩

/-- Witness for C9: a failing first fetch falls back to the second URL and
uses its body; an empty object body is rejected for the missing token
endpoint. -/
theorem c9_as_metadata_discovery_witness :
    (fetchAuthorizationServerMetadata "https://id.example"
        (FetchOutcome.response false none)
        (FetchOutcome.response true (some (Jval.obj
          [("token_endpoint", .str "https://id.example/token"),
           ("device_authorization_endpoint", .str "https://id.example/device")])))).2 =
      ["https://id.example/.well-known/openid-configuration",
       "https://id.example/.well-known/oauth-authorization-server"] ∧
    (fetchAuthorizationServerMetadata "https://id.example"
        (FetchOutcome.response false none)
        (FetchOutcome.response true (some (Jval.obj
          [("token_endpoint", .str "https://id.example/token"),
           ("device_authorization_endpoint", .str "https://id.example/device")])))).1 =
      extractServerEndpoints (some (Jval.obj
        [("token_endpoint", .str "https://id.example/token"),
         ("device_authorization_endpoint", .str "https://id.example/device")])) ∧
    extractServerEndpoints (some (Jval.obj [])) = .error missingTokenEndpointError :=
  have h := c9_as_metadata_discovery "https://id.example"
    (FetchOutcome.response false none)
    (FetchOutcome.response true (some (Jval.obj
      [("token_endpoint", .str "https://id.example/token"),
       ("device_authorization_endpoint", .str "https://id.example/device")])))
  ⟨(h.2.1 rfl).1, (h.2.1 rfl).2 _ rfl, ((h.2.2.2.1 (Jval.obj [])).1 rfl)⟩

/-- **C7.** A successful (2xx) device-authorization response whose object
body matches the `verification_url` variant and carries no
`verification_uri` key is normalized: the returned object's
`verification_uri` equals the body's `verification_url` and the returned
object has no `verification_url` key.  Every non-2xx response, and every
object body matching neither response shape, is a terminal error. -/
theorem c7_device_grant_normalization (status : Nat) (fields : List (String × Jval))
    (hurl : isAuthResponseWithURLJ (Jval.obj fields) = true)
    (_hnouri : (Jval.obj fields).lookup "verification_uri" = none) :
    (∃ result,
        fetchDeviceAuthorization ⟨true, status, Jval.obj fields⟩ = .ok result ∧
        result.lookup "verification_uri" = (Jval.obj fields).lookup "verification_url" ∧
        result.hasKey "verification_url" = false) ∧
      (∀ resp : HttpResponse, resp.ok = false →
        ∃ e, fetchDeviceAuthorization resp = .error e ∧
          e.code = .UnexpectedAuthGrantError) ∧
      (∀ resp : HttpResponse, resp.ok = true → resp.body.isObj = true →
        isAuthResponseWithURLJ resp.body = false → isAuthResponseJ resp.body = false →
        ∃ e, fetchDeviceAuthorization resp = .error e ∧
          e.code = .UnexpectedAuthGrantResponse) := by
  refine ⟨?_, ?_, ?_⟩
  · have hstr : (Jval.obj fields).hasStr "verification_url" = true := by
      unfold isAuthResponseWithURLJ at hurl
      simp only [Bool.and_eq_true] at hurl
      exact hurl.1.1.2
    obtain ⟨s, hs⟩ := hasStr_lookup _ _ hstr
    refine ⟨((Jval.obj fields).setField "verification_uri" (.str s)).deleteField
      "verification_url", ?_, ?_, ?_⟩
    · simp only [fetchDeviceAuthorization, Jval.isObj, Bool.and_true, Bool.not_true,
        Bool.false_eq_true, if_false, hurl, if_true, hs]
    · rw [hs, lookup_set_then_delete fields _ _ _ (by decide)]
    · unfold Jval.hasKey
      have : (Jval.obj fields).setField "verification_uri" (.str s) =
          Jval.obj ((fields.filter (fun p => !(p.1 == "verification_uri"))) ++
            [("verification_uri", Jval.str s)]) := rfl
      rw [this, lookup_deleteField_self]
      rfl
  · intro resp hok
    exact ⟨{ message := "Error obtaining auth grant", code := .UnexpectedAuthGrantError },
      by simp [fetchDeviceAuthorization, hok], rfl⟩
  · intro resp hok hobj hnu hna
    exact ⟨{ message := "Unexpected auth grant response"
             code := .UnexpectedAuthGrantResponse },
      by simp [fetchDeviceAuthorization, hok, hobj, hnu, hna], rfl⟩

/-- Witness for C7: a body carrying `verification_url` and the other device
grant fields is normalized to carry `verification_uri` and lose
`verification_url`; error cases instantiate alongside. -/
theorem c7_device_grant_normalization_witness :
    (∃ result,
        fetchDeviceAuthorization ⟨true, 200, Jval.obj
          [("device_code", .str "d"), ("user_code", .str "u"),
           ("verification_url", .str "https://v.example/activate"),
           ("interval", .num 5), ("expires_in", .num 1800)]⟩ = .ok result ∧
        result.lookup "verification_uri" = (Jval.obj
          [("device_code", .str "d"), ("user_code", .str "u"),
           ("verification_url", .str "https://v.example/activate"),
           ("interval", .num 5), ("expires_in", .num 1800)]).lookup "verification_url" ∧
        result.hasKey "verification_url" = false) ∧
      (∀ resp : HttpResponse, resp.ok = false →
        ∃ e, fetchDeviceAuthorization resp = .error e ∧
          e.code = .UnexpectedAuthGrantError) ∧
      (∀ resp : HttpResponse, resp.ok = true → resp.body.isObj = true →
        isAuthResponseWithURLJ resp.body = false → isAuthResponseJ resp.body = false →
        ∃ e, fetchDeviceAuthorization resp = .error e ∧
          e.code = .UnexpectedAuthGrantResponse) :=
  c7_device_grant_normalization 200
    [("device_code", .str "d"), ("user_code", .str "u"),
     ("verification_url", .str "https://v.example/activate"),
     ("interval", .num 5), ("expires_in", .num 1800)] rfl rfl

/-- Witness for C3: the poller settles first, then the user presses Enter
and the prompt continuation runs; the signal is aborted and the browser
never opens, and every run opens the browser at most once. -/
theorem c3_race_safety_witness :
    (raceRun [RaceEvent.pollerSettled, RaceEvent.userEnter,
        RaceEvent.promptResume]).aborted = true ∧
      (raceRun [RaceEvent.pollerSettled, RaceEvent.userEnter,
        RaceEvent.promptResume]).browserOpens = 0 ∧
      ∀ evs : List RaceEvent, (raceRun evs).browserOpens ≤ 1 :=
  c3_race_safety [RaceEvent.pollerSettled, RaceEvent.userEnter, RaceEvent.promptResume]
    [] [RaceEvent.userEnter, RaceEvent.promptResume] rfl (by decide)

end GleanAuth
